import Mathlib

/-!
Verification development for the browser-use Instagram automation scripts.

The Lean definitions below are shallow embeddings of the repository code:
the delegated browsing agent is modelled as a stub function handed to each
embedded routine (its list of action results is a `List (Option String)`,
the `extracted_content` of each action result; an agent that raises is
modelled with `Except`), JSON files are modelled as explicit state values,
and the randomness consumed by `random.randint` is modelled as an explicit
stream of choices constrained to the range `randint` draws from.
-/

/-! ## String utilities: Python substring and lowercase tests -/

/-- Character list version of Python lowercasing, item by item. -/
def lowerChars (s : String) : List Char :=
  s.data.map Char.toLower

/-- Boolean test that the first list is a leading segment of the second. -/
def leadsB : List Char → List Char → Bool
  | [], _ => true
  | _ :: _, [] => false
  | a :: as, b :: bs => a == b && leadsB as bs

/-- Boolean test that `needle` occurs contiguously inside `hay`,
mirroring the Python expression `needle in hay` on strings. -/
def subChars (needle : List Char) : List Char → Bool
  | [] => needle.isEmpty
  | c :: rest => leadsB needle (c :: rest) || subChars needle rest

/-- Python `kw in content.lower()` for a lowercase literal `kw`. -/
def containsKw (kw : String) (content : String) : Bool :=
  subChars kw.data (lowerChars content)

/-- Python `kw in content` without lowercasing. -/
def containsRaw (kw : String) (content : String) : Bool :=
  subChars kw.data content.data

/-! ## Embedding of `instagram_implementation/strategy/timing.py`

`calculate_batch_schedule` consumes randomness in two places: the
remainder loop draws `randint(0, batches - 1)` and the variation loop
draws `randint(-1, 1)`.  The embedding receives those draws as streams
`ridx : Nat → Nat` (the draw used by remainder step `k`) and
`rvar : Nat → Int` (the draw used at batch index `i`); theorems
constrain them to the ranges `randint` guarantees. -/

/-- Python `distribution[idx] += 1`. -/
def incrementAt : List Int → Nat → List Int
  | [], _ => []
  | x :: xs, 0 => (x + 1) :: xs
  | x :: xs, Nat.succ i => x :: incrementAt xs i

/-- The remainder loop: `for _ in range(remainder): distribution[randint(0, batches-1)] += 1`. -/
def addRemainder (ridx : Nat → Nat) : Nat → List Int → List Int
  | 0, d => d
  | Nat.succ k, d => incrementAt (addRemainder ridx k d) (ridx k)

/-- Python `distribution[i]` (indices stay in bounds in the source). -/
def listGetI (d : List Int) (i : Nat) : Int :=
  d.getD i 0

/-- One step of the variation loop at index `i`:
`if distribution[i] > 2: variation = randint(-1,1); if 0 <= i+1 < batches:
distribution[i] += variation; distribution[i+1] -= variation`. -/
def varStep (rvar : Nat → Int) (batches : Nat) (d : List Int) (i : Nat) : List Int :=
  if 2 < listGetI d i then
    let v := rvar i
    if i + 1 < batches then
      (d.set i (listGetI d i + v)).set (i + 1) (listGetI d (i + 1) - v)
    else d
  else d

/-- The variation loop `for i in range(batches)`. -/
def varPass (rvar : Nat → Int) (batches : Nat) (d : List Int) : List Int :=
  (List.range batches).foldl (varStep rvar batches) d

/-- Embedding of `calculate_batch_schedule(total_actions, batches)`. -/
def calculate_batch_schedule (total_actions batches : Nat)
    (ridx : Nat → Nat) (rvar : Nat → Int) : List Int :=
  let base_per_batch : Int := (total_actions / batches : Nat)
  let remainder := total_actions % batches
  let distribution := List.replicate batches base_per_batch
  varPass rvar batches (addRemainder ridx remainder distribution)

/-! ## Embedding of the JSON progress stores

A persisted JSON file is modelled by `FileState`: absent, present but not
parseable, or present with parsed content.  Loading code that lets the
parse error escape is modelled with `Except`. -/

/-- State of a JSON file on disk. -/
inductive FileState (α : Type) where
  | missing
  | corrupt
  | valid (content : α)

/-- Outcome descriptor written by `3rdtest.py` for one post. -/
structure ActionData where
  liked : Bool
  already_liked : Bool
  commented : Bool
  comment_text : String
  timestamp : String
  error : Option String
deriving DecidableEq

/-- Progress document of `3rdtest.py` (`instagrampgpt_progress.json`). -/
structure Progress3 where
  visited_posts : List String
  actions : List (String × ActionData)
  scroll_positions : List (String × Nat)
  last_action_timestamp : Option String
deriving DecidableEq

/-- The default progress structure `load_progress` builds in `3rdtest.py`. -/
def default3 : Progress3 :=
  { visited_posts := [], actions := [], scroll_positions := [],
    last_action_timestamp := none }

/-- Embedding of `load_progress` from `3rdtest.py`: when the file exists,
`json.load` runs with no surrounding handler, so a parse failure escapes
to the caller; only a missing file yields the default document. -/
def load_progress : FileState Progress3 → Except String Progress3
  | FileState.missing => Except.ok default3
  | FileState.corrupt => Except.error "json.JSONDecodeError"
  | FileState.valid p => Except.ok p

/-- Embedding of `load_interactions` from `full.py`: the whole open and
parse is wrapped in `try/except Exception`, so both a missing file and a
corrupt file yield the default `interacted_posts` list. -/
def load_interactions : FileState (List String) → List String
  | FileState.missing => []
  | FileState.corrupt => []
  | FileState.valid p => p

/-! ## Embedding of the result parsing in `3rdtest.py` and `4rthtest.py` -/

/-- Python dict assignment `d[k] = v`: overwrite in place when the key is
present, append otherwise. -/
def dictSet {β : Type} (d : List (String × β)) (k : String) (v : β) :
    List (String × β) :=
  if k ∈ d.map Prod.fst then
    d.map (fun p => if p.1 = k then (k, v) else p)
  else d ++ [(k, v)]

/-- Scan of agent action results for a keyword: Python loops stopping at
the first entry whose extracted content contains `kw`. -/
def scanFor (kw : String) (hist : List (Option String)) : Bool :=
  hist.any (fun e => match e with
    | some c => containsKw kw c
    | none => false)

/-- The parse loop of `like_post` in `3rdtest.py`.  The accumulator
`liked` carries the flag a retry agent may already have set; a `"liked"`
or `"already liked"` match breaks out of the loop, a `"failed"` match
runs the retry agent (stubbed by `retryHist`) and continues. -/
def likePostLoop (retryHist : List (Option String)) :
    Bool → List (Option String) → Bool × Bool
  | liked, [] => (liked, false)
  | liked, none :: rest => likePostLoop retryHist liked rest
  | liked, some c :: rest =>
    if containsKw "liked" c then (true, false)
    else if containsKw "already liked" c then (liked, true)
    else if containsKw "failed" c then
      likePostLoop retryHist (liked || scanFor "liked" retryHist) rest
    else likePostLoop retryHist liked rest

/-- Embedding of `like_post` from `3rdtest.py`: returns
`(liked, already_liked)` parsed from the like agent history. -/
def like_post (likeHist retryHist : List (Option String)) : Bool × Bool :=
  likePostLoop retryHist false likeHist

/-- Python guard `post_url and ("/p/" in post_url or "/reel/" in post_url)`. -/
def validPostUrl (u : String) : Bool :=
  (!(u == "")) && (containsRaw "/p/" u || containsRaw "/reel/" u)

/-- Embedding of `like_and_comment_post` from `3rdtest.py`: parse the like
agent history, run the comment agent (stubbed by `commentHist`) when the
post was liked or already liked, and record the outcome under the post
URL in the progress document, which the source then saves.  `ts` stands
for `datetime.now().isoformat()` and `progress` for the loaded document. -/
def like_and_comment_post (likeHist retryHist commentHist : List (Option String))
    (ts : String) (progress : Progress3) (post_url : String) : Progress3 :=
  if !(validPostUrl post_url) then progress
  else
    let lr := like_post likeHist retryHist
    let commented := (lr.1 || lr.2) && scanFor "commented" commentHist
    let action_data : ActionData :=
      { liked := lr.1, already_liked := lr.2, commented := commented,
        comment_text := if commented then "Nice post! 🙌" else "",
        timestamp := ts,
        error := if lr.1 || lr.2 then none
                 else some "Failed to like post after multiple attempts" }
    { progress with actions := dictSet progress.actions post_url action_data }

/-- Outcome row written by `4rthtest.py` for one post. -/
structure Action4 where
  liked_status : String
  commented_status : String
  timestamp : String
deriving DecidableEq

/-- Progress document of `4rthtest.py` (`instagrampgpt_progress_4thtest.json`). -/
structure Progress4 where
  visited_posts : List String
  num_likes : Nat
  actions : List (String × Action4)
deriving DecidableEq

/-- The default progress structure of `4rthtest.py`. -/
def default4 : Progress4 :=
  { visited_posts := [], num_likes := 0, actions := [] }

/-- Python `str.strip()` on the character list of a string. -/
def stripStr (s : String) : String :=
  ⟨((s.data.dropWhile Char.isWhitespace).reverse.dropWhile
      Char.isWhitespace).reverse⟩

/-- The parse loop of `like_and_comment_cycle` in `4rthtest.py`: threads
`(found_post, found_liked_status, found_commented_status)` through the
agent history; a `"no new post"` entry aborts the whole cycle (`none`). -/
def cycleScan : List (Option String) → Option String → String → String →
    Option (Option String × String × String)
  | [], post, ls, cs => some (post, ls, cs)
  | none :: rest, post, ls, cs => cycleScan rest post ls cs
  | some c :: rest, post, ls, cs =>
    if containsKw "no new post" c then none
    else
      let post' := if containsRaw "/p/" c || containsRaw "/reel/" c then
        some (stripStr c) else post
      let ls' := if containsKw "liked" c then "liked"
                 else if containsKw "already liked" c then "already liked"
                 else ls
      let cs' := if containsKw "commented" c || containsKw "nice post!" c then
        "commented" else cs
      cycleScan rest post' ls' cs'

/-- One iteration body of `like_and_comment_cycle` in `4rthtest.py` after
the agent run: `none` when the cycle stops (no new post or no URL found);
otherwise the updated progress document that the source saves.  The
Python code routes `visited_posts` through a set, modelled here as an
append of the URL when absent. -/
def cycleUpdate (ts : String) (progress : Progress4)
    (hist : List (Option String)) : Option Progress4 :=
  match cycleScan hist none "unknown" "unknown" with
  | none => none
  | some (none, _, _) => none
  | some (some url, ls, cs) =>
    let visited := if progress.visited_posts.contains url then
      progress.visited_posts else progress.visited_posts ++ [url]
    let num := if ls == "liked" || ls == "already liked" then
      progress.num_likes + 1 else progress.num_likes
    some { visited_posts := visited, num_likes := num,
           actions := dictSet progress.actions url
             { liked_status := ls, commented_status := cs, timestamp := ts } }

/-! ## Embedding of `instagram_implementation`

Constants from `config.py`, the per-target action functions, the batch
functions and the daily `while` loops.  Each daily loop is embedded as a
step function on a state record plus a fuel-indexed runner
(`<name>LoopRun fuel s` returns the state reached after at most `fuel`
iterations together with `true` when the `while` condition became false
within that fuel, i.e. when the Python loop terminated).  The runners
additionally record a ghost event trace: one `Ev.invoke id ctr` per
delegated-agent invocation, where `ctr` is the value of the cumulative
daily counter when the enclosing batch was issued, and one `Ev.save ids`
per write of the progress document. -/

def MAX_FOLLOWS_PER_DAY : Nat := 200

def MAX_LIKES_PER_DAY : Nat := 200

def MAX_COMMENTS_PER_DAY : Nat := 200

def BATCHES_PER_DAY : Nat := 5

def ACTIONS_PER_BATCH_follows : Nat := MAX_FOLLOWS_PER_DAY / BATCHES_PER_DAY

def ACTIONS_PER_BATCH_likes : Nat := MAX_LIKES_PER_DAY / BATCHES_PER_DAY

def ACTIONS_PER_BATCH_comments : Nat := MAX_COMMENTS_PER_DAY / BATCHES_PER_DAY

/-- Target hashtags from `config.py`. -/
def HASHTAGS : List String :=
  ["veganfitness", "biohacking", "plantbaseddiet", "wellnessjourney",
   "holistichealth"]

/-- Ghost trace events: a delegated-agent invocation for a target
(tagged with the cumulative counter at batch-issue time) or a write of
the progress document (tagged with the recorded resource identifiers). -/
inductive Ev where
  | invoke (id : String) (ctr : Int)
  | save (ids : List String)
deriving DecidableEq

/-- Python dict read `d.get(k)` / `d[k]` for string-keyed dicts. -/
def dictGet {β : Type} : List (String × β) → String → Option β
  | [], _ => none
  | p :: rest, k => if p.1 = k then some p.2 else dictGet rest k

/-- Python `int(s)` wrapped in `try/except ValueError`: the loop in
`like_user_posts` returns the first extracted content that parses as an
integer and `0` if none does. -/
def intScan : List (Option String) → Int
  | [] => 0
  | none :: rest => intScan rest
  | some c :: rest =>
    match (stripStr c).toInt? with
    | some n => n
    | none => intScan rest

/-- Embedding of `follow_user` from `strategy/follow_users.py`: an agent
exception yields `False`; otherwise the history is scanned for
`"followed"`. -/
def follow_user (agent : String → Except String (List (Option String)))
    (username : String) : Bool :=
  match agent username with
  | Except.error _ => false
  | Except.ok hist => scanFor "followed" hist

/-- Embedding of `like_user_posts` from `strategy/like_posts.py`: an
agent exception yields `0`; otherwise the first integer extracted
content is returned. -/
def like_user_posts (agent : String → Int → Except String (List (Option String)))
    (username : String) (max_likes : Int) : Int :=
  match agent username max_likes with
  | Except.error _ => 0
  | Except.ok hist => intScan hist

/-- Embedding of `like_hashtag_posts` from `strategy/like_posts.py`. -/
def like_hashtag_posts (agent : String → Int → Except String (List (Option String)))
    (hashtag : String) (max_likes : Int) : Int :=
  match agent hashtag max_likes with
  | Except.error _ => 0
  | Except.ok hist => intScan hist

/-- Embedding of `comment_on_post` from `strategy/comment_posts.py`: the
analysis run and the comment run both sit inside one `try`, so an
exception from either yields `False`; otherwise the comment history is
scanned for `"commented"`.  (`generate_comment` catches its own errors
and falls back to a template, so it cannot raise.) -/
def comment_on_post
    (analysisAgent commentAgent : String → Except String (List (Option String)))
    (post_url : String) : Bool :=
  match analysisAgent post_url with
  | Except.error _ => false
  | Except.ok _ =>
    match commentAgent post_url with
    | Except.error _ => false
    | Except.ok chist => scanFor "commented" chist

/-- Python `s.split()` dropping empty tokens. -/
def splitWs (s : String) : List String :=
  (s.split Char.isWhitespace).filter (fun t => !(t == ""))

/-- The URL extraction of `find_posts_to_comment`: the first entry with
content is split on whitespace, filtered for `"instagram.com/p/"`,
stripped and truncated to `max_posts`. -/
def findUrlScan : List (Option String) → Nat → List String
  | [], _ => []
  | none :: rest, m => findUrlScan rest m
  | some c :: _, m =>
    (((splitWs c).filter (fun line => containsRaw "instagram.com/p/" line)).map
      stripStr).take m

/-- Embedding of `find_posts_to_comment` from `strategy/comment_posts.py`. -/
def find_posts_to_comment
    (agent : String → Nat → Except String (List (Option String)))
    (hashtag : String) (max_posts : Nat) : List String :=
  match agent hashtag max_posts with
  | Except.error _ => []
  | Except.ok hist => findUrlScan hist max_posts

/-! ### `follow_users_batch` and `follow_users_daily` -/

/-- The loop of `follow_users_batch`: usernames already keyed in
`results` are skipped, every other username is handed to `follow_user`.
`ctr` is the ghost counter tag for the emitted invoke events. -/
def followBatchGo (agent : String → Except String (List (Option String)))
    (ctr : Int) : List String → List (String × Bool) →
    List (String × Bool) × List Ev
  | [], results => (results, [])
  | u :: rest, results =>
    if u ∈ results.map Prod.fst then followBatchGo agent ctr rest results
    else
      let r := followBatchGo agent ctr rest (results ++ [(u, follow_user agent u)])
      (r.1, Ev.invoke u ctr :: r.2)

/-- Embedding of `follow_users_batch`. -/
def follow_users_batch (agent : String → Except String (List (Option String)))
    (ctr : Int) (usernames : List String) (batch_size : Nat) :
    List (String × Bool) × List Ev :=
  followBatchGo agent ctr (usernames.take batch_size) []

/-- Count of `True` values in a results dict, Python
`sum(1 for success in results.values() if success)`. -/
def countTrue (l : List (String × Bool)) : Nat :=
  (l.filter (fun p => p.2)).length

/-- Python `old.update(new)` on string-keyed dicts: keys already present
are overwritten in place, fresh keys are appended. -/
def dictUpdate {β : Type} (old upd : List (String × β)) : List (String × β) :=
  old.map (fun p => match dictGet upd p.1 with
    | some v => (p.1, v)
    | none => p) ++
  upd.filter (fun p => decide (p.1 ∉ old.map Prod.fst))

/-- Loop state of `follow_users_daily`: `all_results`,
`remaining_users`, `total_followed` and the ghost trace. -/
structure FollowState where
  allResults : List (String × Bool)
  remaining : List String
  total : Nat
  trace : List Ev
deriving DecidableEq

/-- Initial state of `follow_users_daily`. -/
def followInit (usernames : List String) : FollowState :=
  { allResults := [], remaining := usernames, total := 0, trace := [] }

/-- Negation of the `while remaining_users and total_followed <
MAX_FOLLOWS_PER_DAY` condition. -/
def followDone (s : FollowState) : Bool :=
  s.remaining.isEmpty || decide (MAX_FOLLOWS_PER_DAY ≤ s.total)

/-- One iteration of the `follow_users_daily` loop body. -/
def followStep (agent : String → Except String (List (Option String)))
    (s : FollowState) : FollowState :=
  let batch_size := min ACTIONS_PER_BATCH_follows (MAX_FOLLOWS_PER_DAY - s.total)
  let br := follow_users_batch agent (s.total : Int) s.remaining batch_size
  let processed := br.1.map Prod.fst
  { allResults := dictUpdate s.allResults br.1,
    remaining := s.remaining.filter (fun u => decide (u ∉ processed)),
    total := s.total + countTrue br.1,
    trace := s.trace ++ br.2 }

/-- Fuel-indexed runner of the `follow_users_daily` loop. -/
def followLoopRun (agent : String → Except String (List (Option String))) :
    Nat → FollowState → FollowState × Bool
  | 0, s => (s, followDone s)
  | Nat.succ n, s =>
    if followDone s then (s, true)
    else followLoopRun agent n (followStep agent s)

/-- Embedding of `follow_users_daily`: run the loop from the initial
state for at most `fuel` iterations. -/
def follow_users_daily (agent : String → Except String (List (Option String)))
    (usernames : List String) (fuel : Nat) : FollowState × Bool :=
  followLoopRun agent fuel (followInit usernames)

/-! ### `like_posts_batch` and `like_posts_daily` -/

/-- The username loop of `like_posts_batch`, threading
`(results, likes_remaining, events)`. -/
def likeUsersGo (uAgent : String → Int → Except String (List (Option String)))
    (ctr lpu : Int) : List String →
    List (String × Int) × Int × List Ev → List (String × Int) × Int × List Ev
  | [], st => st
  | u :: rest, (results, rem, evs) =>
    if rem ≤ 0 then (results, rem, evs)
    else
      let likes := like_user_posts uAgent u (min lpu rem)
      likeUsersGo uAgent ctr lpu rest
        (dictSet results u likes, rem - likes, evs ++ [Ev.invoke u ctr])

/-- The hashtag loop of `like_posts_batch`; keys carry the `#` prefixing
of the source. -/
def likeHashtagsGo (hAgent : String → Int → Except String (List (Option String)))
    (ctr lph : Int) : List String →
    List (String × Int) × Int × List Ev → List (String × Int) × Int × List Ev
  | [], st => st
  | h :: rest, (results, rem, evs) =>
    if rem ≤ 0 then (results, rem, evs)
    else
      let likes := like_hashtag_posts hAgent h (min lph rem)
      likeHashtagsGo hAgent ctr lph rest
        (dictSet results ("#" ++ h) likes, rem - likes,
         evs ++ [Ev.invoke ("#" ++ h) ctr])

/-- Embedding of `like_posts_batch`: per-source quotas, then the user
loop followed by the hashtag loop. -/
def like_posts_batch
    (uAgent hAgent : String → Int → Except String (List (Option String)))
    (ctr : Int) (usernames hashtags : List String) (batch_size : Nat) :
    List (String × Int) × Int × List Ev :=
  let denom := usernames.length + hashtags.length
  let lpu : Int := if usernames.isEmpty then 0
    else min 3 ((batch_size / denom : Nat) : Int)
  let lph : Int := if hashtags.isEmpty then 0
    else min 5 ((batch_size / denom : Nat) : Int)
  likeHashtagsGo hAgent ctr lph hashtags
    (likeUsersGo uAgent ctr lpu usernames ([], (batch_size : Int), []))

/-- Sum of the per-source like counts of a batch result. -/
def sumValues (l : List (String × Int)) : Int :=
  (l.map Prod.snd).sum

/-- The update loop of `like_posts_daily`:
`all_results[source] = all_results.get(source, 0) + likes`. -/
def mergeAdd (all : List (String × Int)) : List (String × Int) →
    List (String × Int)
  | [] => all
  | (k, v) :: rest => mergeAdd (dictSet all k ((dictGet all k).getD 0 + v)) rest

/-- Loop state of `like_posts_daily`.  `total_likes` is an integer
because the parsed per-source count is whatever integer the agent
returned. -/
structure LikeState where
  allResults : List (String × Int)
  total : Int
  trace : List Ev
deriving DecidableEq

/-- Initial state of `like_posts_daily`. -/
def likeInit : LikeState :=
  { allResults := [], total := 0, trace := [] }

/-- Negation of the `while total_likes < MAX_LIKES_PER_DAY` condition. -/
def likeDone (s : LikeState) : Bool :=
  decide ((MAX_LIKES_PER_DAY : Int) ≤ s.total)

/-- One iteration of the `like_posts_daily` loop body.  The batch size
`min(likes_per_batch, MAX_LIKES_PER_DAY - total_likes)` is positive
whenever the loop guard held, so taking `Int.toNat` is faithful on every
state the loop reaches. -/
def likeStep (uAgent hAgent : String → Int → Except String (List (Option String)))
    (usernames hashtags : List String) (s : LikeState) : LikeState :=
  let batch_size :=
    (min (ACTIONS_PER_BATCH_likes : Int) ((MAX_LIKES_PER_DAY : Int) - s.total)).toNat
  let br := like_posts_batch uAgent hAgent s.total usernames hashtags batch_size
  { allResults := mergeAdd s.allResults br.1,
    total := s.total + sumValues br.1,
    trace := s.trace ++ br.2.2 }

/-- Fuel-indexed runner of the `like_posts_daily` loop. -/
def likeLoopRun (uAgent hAgent : String → Int → Except String (List (Option String)))
    (usernames hashtags : List String) : Nat → LikeState → LikeState × Bool
  | 0, s => (s, likeDone s)
  | Nat.succ n, s =>
    if likeDone s then (s, true)
    else likeLoopRun uAgent hAgent usernames hashtags n
      (likeStep uAgent hAgent usernames hashtags s)

/-- Embedding of `like_posts_daily`. -/
def like_posts_daily
    (uAgent hAgent : String → Int → Except String (List (Option String)))
    (usernames hashtags : List String) (fuel : Nat) : LikeState × Bool :=
  likeLoopRun uAgent hAgent usernames hashtags fuel likeInit

/-! ### `comment_posts_batch` and `comment_posts_daily` -/

/-- The post loop of `comment_posts_batch`, threading
`(per-hashtag rows, comments_remaining, events)`.  `comments_remaining`
is a `Nat`: it starts at the batch size and is decremented only when
positive. -/
def commentPostsGo
    (analysisAgent commentAgent : String → Except String (List (Option String)))
    (ctr : Int) : List String →
    List (String × Bool) × Nat × List Ev → List (String × Bool) × Nat × List Ev
  | [], st => st
  | url :: rest, (acc, rem, evs) =>
    if rem = 0 then (acc, rem, evs)
    else
      let success := comment_on_post analysisAgent commentAgent url
      commentPostsGo analysisAgent commentAgent ctr rest
        (acc ++ [(url, success)], if success then rem - 1 else rem,
         evs ++ [Ev.invoke url ctr])

/-- The hashtag loop of `comment_posts_batch`. -/
def commentHashtagsGo
    (findAgent : String → Nat → Except String (List (Option String)))
    (analysisAgent commentAgent : String → Except String (List (Option String)))
    (ctr : Int) (pph : Nat) : List String →
    List (String × List (String × Bool)) × Nat × List Ev →
    List (String × List (String × Bool)) × Nat × List Ev
  | [], st => st
  | h :: rest, (results, rem, evs) =>
    if rem = 0 then (results, rem, evs)
    else
      let posts := find_posts_to_comment findAgent h (min pph rem)
      let inner := commentPostsGo analysisAgent commentAgent ctr posts
        ([], rem, evs ++ [Ev.invoke ("#" ++ h) ctr])
      commentHashtagsGo findAgent analysisAgent commentAgent ctr pph rest
        (dictSet results h inner.1, inner.2.1, inner.2.2)

/-- Embedding of `comment_posts_batch`.  (On an empty hashtag list the
Python source raises `ZeroDivisionError`; here `Nat` division yields
`max 1 0 = 1` and the loop over no hashtags does nothing — theorems use
non-empty hashtag lists.) -/
def comment_posts_batch
    (findAgent : String → Nat → Except String (List (Option String)))
    (analysisAgent commentAgent : String → Except String (List (Option String)))
    (ctr : Int) (hashtags : List String) (batch_size : Nat) :
    List (String × List (String × Bool)) × Nat × List Ev :=
  let pph := max 1 (batch_size / hashtags.length)
  commentHashtagsGo findAgent analysisAgent commentAgent ctr pph hashtags
    ([], batch_size, [])

/-- Successes in one hashtag row,
Python `sum(1 for _, success in posts if success)`. -/
def countSuccessPosts (posts : List (String × Bool)) : Nat :=
  (posts.filter (fun p => p.2)).length

/-- Successes across a whole batch result. -/
def sumSuccess (results : List (String × List (String × Bool))) : Nat :=
  (results.map (fun p => countSuccessPosts p.2)).sum

/-- The update loop of `comment_posts_daily`:
`all_results[hashtag].extend(posts)`. -/
def mergeExtend (all : List (String × List (String × Bool))) :
    List (String × List (String × Bool)) →
    List (String × List (String × Bool))
  | [] => all
  | (k, v) :: rest =>
    mergeExtend (dictSet all k ((dictGet all k).getD [] ++ v)) rest

/-- Loop state of `comment_posts_daily`. -/
structure CommentState where
  allResults : List (String × List (String × Bool))
  total : Nat
  trace : List Ev
deriving DecidableEq

/-- Initial state of `comment_posts_daily`. -/
def commentInit : CommentState :=
  { allResults := [], total := 0, trace := [] }

/-- Negation of the `while total_comments < MAX_COMMENTS_PER_DAY`
condition. -/
def commentDone (s : CommentState) : Bool :=
  decide (MAX_COMMENTS_PER_DAY ≤ s.total)

/-- One iteration of the `comment_posts_daily` loop body. -/
def commentStep
    (findAgent : String → Nat → Except String (List (Option String)))
    (analysisAgent commentAgent : String → Except String (List (Option String)))
    (hashtags : List String) (s : CommentState) : CommentState :=
  let batch_size := min ACTIONS_PER_BATCH_comments (MAX_COMMENTS_PER_DAY - s.total)
  let br := comment_posts_batch findAgent analysisAgent commentAgent
    (s.total : Int) hashtags batch_size
  { allResults := mergeExtend s.allResults br.1,
    total := s.total + sumSuccess br.1,
    trace := s.trace ++ br.2.2 }

/-- Fuel-indexed runner of the `comment_posts_daily` loop. -/
def commentLoopRun
    (findAgent : String → Nat → Except String (List (Option String)))
    (analysisAgent commentAgent : String → Except String (List (Option String)))
    (hashtags : List String) : Nat → CommentState → CommentState × Bool
  | 0, s => (s, commentDone s)
  | Nat.succ n, s =>
    if commentDone s then (s, true)
    else commentLoopRun findAgent analysisAgent commentAgent hashtags n
      (commentStep findAgent analysisAgent commentAgent hashtags s)

/-- Embedding of `comment_posts_daily`. -/
def comment_posts_daily
    (findAgent : String → Nat → Except String (List (Option String)))
    (analysisAgent commentAgent : String → Except String (List (Option String)))
    (hashtags : List String) (fuel : Nat) : CommentState × Bool :=
  commentLoopRun findAgent analysisAgent commentAgent hashtags fuel commentInit

/-! ### Trace of `run_daily_tasks` in `daily_tasks.py`

`run_daily_tasks` runs the three engagement loops to completion and
writes the stats document exactly once, in the `finally` block at the
end.  Its ghost trace is therefore the concatenation of the three loop
traces followed by a single save event. -/

def run_daily_tasks_trace
    (followAgent : String → Except String (List (Option String)))
    (uAgent hAgent : String → Int → Except String (List (Option String)))
    (findAgent : String → Nat → Except String (List (Option String)))
    (analysisAgent commentAgent : String → Except String (List (Option String)))
    (target_users hashtags : List String) (fuelF fuelL fuelC : Nat) : List Ev :=
  (follow_users_daily followAgent target_users fuelF).1.trace ++
  (like_posts_daily uAgent hAgent target_users hashtags fuelL).1.trace ++
  (comment_posts_daily findAgent analysisAgent commentAgent hashtags fuelC).1.trace ++
  [Ev.save []]

/-! ## Embedding of the orchestrator loops of `full.py` and
`explore_and_comment.py` -/

/-- The per-post loop of `main` in `full.py`: posts already in the
loaded interactions list are skipped; otherwise the like-and-comment
flow is invoked and `mark_interacted` appends the URL and saves the
document immediately, before the next post is handled. -/
def fullMainLoop : List String → List String → List String × List Ev
  | inter, [] => (inter, [])
  | inter, p :: rest =>
    if p ∈ inter then fullMainLoop inter rest
    else
      let r := fullMainLoop (inter ++ [p]) rest
      (r.1, Ev.invoke p 0 :: Ev.save (inter ++ [p]) :: r.2)

/-- The per-post loop of `main` in `explore_and_comment.py`: a post with
a present, non-empty URL not yet in the interacted set is handed to
`like_and_comment` (stubbed by `success`); only on success is the URL
added to the set and the set saved. -/
def exploreLoop (success : String → Bool) :
    List (Option String) → List String → List String × List Ev
  | [], inter => (inter, [])
  | none :: rest, inter => exploreLoop success rest inter
  | some url :: rest, inter =>
    if url ≠ "" ∧ url ∉ inter then
      if success url then
        let r := exploreLoop success rest (inter ++ [url])
        (r.1, Ev.invoke url 0 :: Ev.save (inter ++ [url]) :: r.2)
      else
        let r := exploreLoop success rest inter
        (r.1, Ev.invoke url 0 :: r.2)
    else exploreLoop success rest inter

/-! ## Trace predicates -/

/-- Event check for claim C1: the event is not an invocation of an
identifier from the loaded store. -/
def evNotLoaded (store : List String) : Ev → Bool
  | Ev.invoke r _ => decide (r ∉ store)
  | Ev.save _ => true

/-- No event of the trace invokes an identifier from the loaded store. -/
def noLoadedInvoked (store : List String) (evs : List Ev) : Bool :=
  evs.all (evNotLoaded store)

/-- Event check for claim C6: any invocation was issued while the
cumulative counter was still below `cap`. -/
def evBelow (cap : Int) : Ev → Bool
  | Ev.invoke _ c => decide (c < cap)
  | Ev.save _ => true

/-- All invocations of the trace were issued below the cap. -/
def invokesBelow (cap : Int) (evs : List Ev) : Bool :=
  evs.all (evBelow cap)

/-- Per-resource persistence (claim C8): after every invocation, a save
whose payload records the invoked identifier occurs before any further
invocation.  The second argument is the identifier still awaiting a
save. -/
def persistedEachResource : List Ev → Option String → Bool
  | [], _ => true
  | Ev.save ids :: rest, some r => decide (r ∈ ids) && persistedEachResource rest none
  | Ev.save _ :: rest, none => persistedEachResource rest none
  | Ev.invoke _ _ :: _, some _ => false
  | Ev.invoke r _ :: rest, none => persistedEachResource rest (some r)

/-- The `for _ in range(max_posts)` loop of `like_and_comment_cycle` in
`4rthtest.py`, with ghost trace: each iteration reloads the progress
document (threaded here as `p`), breaks when `num_likes >= 10`, invokes
the cycle agent (stub `hist`, indexed by the remaining iteration count)
and applies `cycleUpdate`; a `none` update (no new post, or no URL
identified) ends the whole cycle. -/
def cycleLoop (ts : String) (hist : Nat → List (Option String)) :
    Nat → Progress4 → List Ev → Progress4 × List Ev
  | 0, p, evs => (p, evs)
  | Nat.succ n, p, evs =>
    if 10 ≤ p.num_likes then (p, evs)
    else
      let evs' := evs ++ [Ev.invoke "feed-cycle" (p.num_likes : Int)]
      match cycleUpdate ts p (hist n) with
      | none => (p, evs')
      | some p' => cycleLoop ts hist n p' evs'

/-- First-occurrence deduplication relative to an already-seen list:
the order in which `follow_users_batch` first meets each fresh
username. -/
def firstDedup (seen : List String) : List String → List String
  | [] => []
  | u :: rest =>
    if u ∈ seen then firstDedup seen rest
    else u :: firstDedup (seen ++ [u]) rest

/-- Stub agent whose every run succeeds with an empty history: it
reports zero successes and no matching keyword. -/
def silentAgent : String → Except String (List (Option String)) :=
  fun _ => Except.ok []

/-- Two-argument variant of `silentAgent` for the like agents. -/
def silentAgent2 : String → Int → Except String (List (Option String)) :=
  fun _ _ => Except.ok []

/-- Discovery stub that finds nothing. -/
def silentFind : String → Nat → Except String (List (Option String)) :=
  fun _ _ => Except.ok []

/-! ## Theorems about `calculate_batch_schedule` -/

theorem calc_10_3_unfold (ridx : Nat → Nat) (rvar : Nat → Int) :
    calculate_batch_schedule 10 3 ridx rvar =
      varStep rvar 3 (varStep rvar 3 (varStep rvar 3
        (incrementAt [3, 3, 3] (ridx 0)) 0) 1) 2 := rfl

/-- Claim C3: for every sequence of random draws in the ranges `randint`
guarantees, `calculate_batch_schedule 10 3` returns exactly three
integers, each non-negative, summing to 10. -/
theorem batch_schedule_10_3_valid (ridx : Nat → Nat) (rvar : Nat → Int)
    (hidx : ∀ k, ridx k < 3) (hvar : ∀ k, -1 ≤ rvar k ∧ rvar k ≤ 1) :
    (calculate_batch_schedule 10 3 ridx rvar).length = 3 ∧
    (calculate_batch_schedule 10 3 ridx rvar).sum = 10 ∧
    ∀ x ∈ calculate_batch_schedule 10 3 ridx rvar, 0 ≤ x := by
  have h0 := hidx 0
  have ha := hvar 0
  have hb := hvar 1
  have hc : ridx 0 = 0 ∨ ridx 0 = 1 ∨ ridx 0 = 2 := by omega
  have ha3 : rvar 0 = -1 ∨ rvar 0 = 0 ∨ rvar 0 = 1 := by omega
  have hb3 : rvar 1 = -1 ∨ rvar 1 = 0 ∨ rvar 1 = 1 := by omega
  rw [calc_10_3_unfold]
  rcases hc with hc | hc | hc <;>
    rcases ha3 with ha3 | ha3 | ha3 <;>
      rcases hb3 with hb3 | hb3 | hb3 <;>
        simp [hc, ha3, hb3, varStep, listGetI, incrementAt]

/-- Witness for claim C3 at a concrete stream of draws. -/
theorem batch_schedule_10_3_valid_witness :
    (calculate_batch_schedule 10 3 (fun _ => 0) (fun _ => 0)).length = 3 ∧
    (calculate_batch_schedule 10 3 (fun _ => 0) (fun _ => 0)).sum = 10 ∧
    ∀ x ∈ calculate_batch_schedule 10 3 (fun _ => 0) (fun _ => 0), 0 ≤ x :=
  batch_schedule_10_3_valid (fun _ => 0) (fun _ => 0)
    (fun _ => by norm_num) (fun _ => by norm_num)

/-- Claim C9: there is a sequence of in-range random draws for which
`calculate_batch_schedule 3 4` returns `[4, -1, 0, 0]`, a list with a
negative entry: the remainder loop can put all three remainder units on
index 0 and the variation step then subtracts 1 from index 1, which is 0. -/
theorem batch_schedule_can_go_negative :
    ∃ ridx : Nat → Nat, ∃ rvar : Nat → Int,
      (∀ k, ridx k < 4) ∧ (∀ k, -1 ≤ rvar k ∧ rvar k ≤ 1) ∧
      calculate_batch_schedule 3 4 ridx rvar = [4, -1, 0, 0] ∧
      ∃ x ∈ calculate_batch_schedule 3 4 ridx rvar, x < 0 := by
  refine ⟨fun _ => 0, fun _ => 1, fun k => by norm_num,
    fun k => by norm_num, by decide, by decide⟩

/-! ## Theorems about the progress store loads -/

/-- Counterexample to claim C4: `load_progress` in `3rdtest.py` does not
return the default structure when the file exists but fails to parse; the
`json.JSONDecodeError` escapes to the caller. -/
theorem load_progress_corrupt_raises :
    (load_progress FileState.corrupt).isOk = false := rfl

/-- Claim C4 (amended): `load_interactions` in `full.py` returns the
default empty structure both for a missing and for a corrupt file and
never raises, while `load_progress` in `3rdtest.py` returns the default
only for a missing file and propagates the parse error for a corrupt
file. -/
theorem progress_load_default_behavior :
    load_interactions FileState.missing = [] ∧
    load_interactions FileState.corrupt = [] ∧
    (∀ p, load_interactions (FileState.valid p) = p) ∧
    load_progress FileState.missing = Except.ok default3 ∧
    (load_progress FileState.corrupt).isOk = false :=
  ⟨rfl, rfl, fun _ => rfl, rfl, rfl⟩

/-! ## Theorems about the `"already liked"` parse in `3rdtest.py` and `4rthtest.py` -/

/-- Claim C2 (code bug): with a stub agent whose entries report
`"already liked"` then `"commented"`, `3rdtest.py` records
`liked = true, already_liked = false` (not `already_liked = true`):
the substring test `"liked" in content` also matches `"already liked"`,
so the dedicated `already liked` branch is unreachable.  The comment
still runs, so `commented = true`, and in `4rthtest.py` the cumulative
`num_likes` counter increases by exactly one for the target while the
recorded status is likewise `"liked"`. -/
theorem already_liked_recorded_as_liked :
    (like_and_comment_post [some "already liked"] [] [some "commented"]
        "t0" default3 "x/p/1").actions.lookup "x/p/1" =
      some { liked := true, already_liked := false, commented := true,
             comment_text := "Nice post! 🙌", timestamp := "t0",
             error := none } ∧
    cycleUpdate "t0" default4
        [some "x/p/1", some "already liked", some "commented"] =
      some { visited_posts := ["x/p/1"], num_likes := 1,
             actions := [("x/p/1",
               { liked_status := "liked", commented_status := "commented",
                 timestamp := "t0" })] } := by
  constructor <;> rfl

/-! ## Helper lemmas about dicts and batch results -/

theorem dictGet_append_notmem {β : Type} (k : String) :
    ∀ (d l : List (String × β)), k ∉ d.map Prod.fst →
      dictGet (d ++ l) k = dictGet l k := by
  intro d
  induction d with
  | nil => intro l _; rfl
  | cons p rest ih =>
    intro l h
    simp only [List.map_cons, List.mem_cons, not_or] at h
    have hne : ¬(p.1 = k) := fun hh => h.1 hh.symm
    simpa [dictGet, hne] using ih l h.2

theorem dictGet_eq_none {β : Type} (k : String) (d : List (String × β))
    (h : k ∉ d.map Prod.fst) : dictGet d k = none := by
  have := dictGet_append_notmem k d [] h
  simpa using this

theorem dictGet_mapSet {β : Type} (k : String) (v : β) :
    ∀ d : List (String × β), k ∈ d.map Prod.fst →
      dictGet (d.map (fun p => if p.1 = k then (k, v) else p)) k = some v := by
  intro d
  induction d with
  | nil => intro h; simp at h
  | cons p rest ih =>
    intro h
    by_cases hp : p.1 = k
    · simp [dictGet, hp]
    · have hm : k ∈ rest.map Prod.fst := by
        simp only [List.map_cons, List.mem_cons] at h
        rcases h with h | h
        · exact absurd h.symm hp
        · exact h
      simp [dictGet, hp, ih hm]

theorem dictGet_dictSet {β : Type} (k : String) (v : β)
    (d : List (String × β)) : dictGet (dictSet d k v) k = some v := by
  unfold dictSet
  by_cases hk : k ∈ d.map Prod.fst
  · rw [if_pos hk]
    exact dictGet_mapSet k v d hk
  · rw [if_neg hk, dictGet_append_notmem k d [(k, v)] hk]
    simp [dictGet]

theorem mapIdOn {α : Type} (f : α → α) :
    ∀ l : List α, (∀ a ∈ l, f a = a) → l.map f = l := by
  intro l
  induction l with
  | nil => intro _; rfl
  | cons a t ih =>
    intro h
    have ha := h a (by simp)
    have ht := ih (fun b hb => h b (by simp [hb]))
    simp [ha, ht]

theorem dictUpdate_disjoint {β : Type} (old upd : List (String × β))
    (h : ∀ k, k ∈ upd.map Prod.fst → k ∉ old.map Prod.fst) :
    dictUpdate old upd = old ++ upd := by
  unfold dictUpdate
  have h1 : old.map (fun p => match dictGet upd p.1 with
      | some v => (p.1, v)
      | none => p) = old := by
    apply mapIdOn
    intro p hp
    have hmem : p.1 ∉ upd.map Prod.fst := by
      intro hmem
      exact h p.1 hmem (List.mem_map_of_mem Prod.fst hp)
    rw [dictGet_eq_none p.1 upd hmem]
  have h2 : upd.filter (fun p => decide (p.1 ∉ old.map Prod.fst)) = upd := by
    apply List.filter_eq_self.mpr
    intro p hp
    simpa using h p.1 (List.mem_map_of_mem Prod.fst hp)
  rw [h1, h2]

theorem countTrue_append (a b : List (String × Bool)) :
    countTrue (a ++ b) = countTrue a + countTrue b := by
  simp [countTrue, List.filter_append]

theorem countTrue_le_length (l : List (String × Bool)) :
    countTrue l ≤ l.length :=
  List.length_filter_le _ l

theorem firstDedup_subset (x : String) :
    ∀ (us seen : List String), x ∈ firstDedup seen us → x ∈ us := by
  intro us
  induction us with
  | nil => intro seen h; simp [firstDedup] at h
  | cons u rest ih =>
    intro seen h
    by_cases hu : u ∈ seen
    · simp only [firstDedup, if_pos hu] at h
      exact List.mem_cons_of_mem _ (ih _ h)
    · simp only [firstDedup, if_neg hu, List.mem_cons] at h
      rcases h with h | h
      · simp [h]
      · exact List.mem_cons_of_mem _ (ih _ h)

theorem firstDedup_length :
    ∀ (us seen : List String), (firstDedup seen us).length ≤ us.length := by
  intro us
  induction us with
  | nil => intro seen; simp [firstDedup]
  | cons u rest ih =>
    intro seen
    by_cases hu : u ∈ seen
    · simp only [firstDedup, if_pos hu]
      exact Nat.le_succ_of_le (ih seen)
    · simp only [firstDedup, if_neg hu, List.length_cons]
      exact Nat.succ_le_succ (ih (seen ++ [u]))

theorem followBatchGo_fst
    (agent : String → Except String (List (Option String))) (ctr : Int) :
    ∀ (us : List String) (acc : List (String × Bool)),
      (followBatchGo agent ctr us acc).1.map Prod.fst =
        acc.map Prod.fst ++ firstDedup (acc.map Prod.fst) us := by
  intro us
  induction us with
  | nil => intro acc; simp [followBatchGo, firstDedup]
  | cons u rest ih =>
    intro acc
    by_cases hu : u ∈ acc.map Prod.fst
    · simp only [followBatchGo, if_pos hu, firstDedup]
      rw [ih acc]
    · simp only [followBatchGo, if_neg hu, firstDedup]
      rw [ih (acc ++ [(u, follow_user agent u)])]
      simp

theorem followBatchGo_events
    (agent : String → Except String (List (Option String)))
    (ctr cap : Int) (hc : ctr < cap) :
    ∀ (us : List String) (acc : List (String × Bool)),
      invokesBelow cap (followBatchGo agent ctr us acc).2 = true := by
  intro us
  induction us with
  | nil => intro acc; rfl
  | cons u rest ih =>
    intro acc
    by_cases hu : u ∈ acc.map Prod.fst
    · simpa [followBatchGo, hu] using ih acc
    · simp only [followBatchGo, if_neg hu, invokesBelow, List.all_cons]
      have h1 : evBelow cap (Ev.invoke u ctr) = true := by
        simp [evBelow, hc]
      have h2 := ih (acc ++ [(u, follow_user agent u)])
      simp only [invokesBelow] at h2
      simp [h1, h2]

theorem followBatchGo_raising (e : String) (ctr : Int) :
    ∀ (us : List String) (acc : List (String × Bool)),
      (followBatchGo (fun _ => Except.error e) ctr us acc).1 =
        acc ++ (firstDedup (acc.map Prod.fst) us).map (fun u => (u, false)) := by
  intro us
  induction us with
  | nil => intro acc; simp [followBatchGo, firstDedup]
  | cons u rest ih =>
    intro acc
    by_cases hu : u ∈ acc.map Prod.fst
    · simp only [followBatchGo, if_pos hu, firstDedup]
      rw [ih acc]
    · simp only [followBatchGo, if_neg hu, firstDedup]
      have hfu : follow_user (fun _ => Except.error e) u = false := rfl
      rw [hfu, ih (acc ++ [(u, false)])]
      simp

/-! ## Theorems about skipping already-recorded targets (claim C1) -/

theorem fullMainLoop_noLoaded (store : List String) :
    ∀ (posts cur : List String), (∀ x, x ∈ store → x ∈ cur) →
      noLoadedInvoked store (fullMainLoop cur posts).2 = true := by
  intro posts
  induction posts with
  | nil => intro cur _; rfl
  | cons p rest ih =>
    intro cur h
    by_cases hp : p ∈ cur
    · simpa [fullMainLoop, hp] using ih cur h
    · have hps : p ∉ store := fun hs => hp (h p hs)
      have h' : ∀ x, x ∈ store → x ∈ cur ++ [p] :=
        fun x hx => List.mem_append_left _ (h x hx)
      have hrest := ih (cur ++ [p]) h'
      simp only [fullMainLoop, if_neg hp, noLoadedInvoked, List.all_cons] at *
      simp [evNotLoaded, hps, hrest]

theorem exploreLoop_noLoaded (store : List String) (success : String → Bool) :
    ∀ (posts : List (Option String)) (cur : List String),
      (∀ x, x ∈ store → x ∈ cur) →
      noLoadedInvoked store (exploreLoop success posts cur).2 = true := by
  intro posts
  induction posts with
  | nil => intro cur _; rfl
  | cons op rest ih =>
    intro cur h
    match op with
    | none => simpa [exploreLoop] using ih cur h
    | some url =>
      by_cases hc : url ≠ "" ∧ url ∉ cur
      · have hns : url ∉ store := fun hs => hc.2 (h url hs)
        by_cases hsucc : success url
        · have h' : ∀ x, x ∈ store → x ∈ cur ++ [url] :=
            fun x hx => List.mem_append_left _ (h x hx)
          have hrest := ih (cur ++ [url]) h'
          simp only [exploreLoop, if_pos hc, if_pos hsucc, noLoadedInvoked,
            List.all_cons] at *
          simp [evNotLoaded, hns, hrest]
        · have hrest := ih cur h
          simp only [exploreLoop, if_pos hc, if_neg hsucc, noLoadedInvoked,
            List.all_cons] at *
          simp [evNotLoaded, hns, hrest]
      · simpa [exploreLoop, if_neg hc] using ih cur h

/-- Claim C1: the orchestrator loops of `full.py` and
`explore_and_comment.py` never invoke the delegated agent for a resource
identifier already present in the loaded progress store: the trace of a
run started from loaded store `inter` contains no invocation of any
member of `inter`. -/
theorem loaded_targets_never_reinvoked :
    (∀ (inter posts : List String),
      noLoadedInvoked inter (fullMainLoop inter posts).2 = true) ∧
    (∀ (success : String → Bool) (posts : List (Option String))
      (inter : List String),
      noLoadedInvoked inter (exploreLoop success posts inter).2 = true) :=
  ⟨fun inter posts => fullMainLoop_noLoaded inter posts inter (fun _ hx => hx),
   fun success posts inter =>
     exploreLoop_noLoaded inter success posts inter (fun _ hx => hx)⟩

/-! ## Theorems about per-target exception handling (claim C7) -/

/-- Claim C7: when the delegated agent raises, each per-target action
function returns its failure value — `False` for `follow_user` and
`comment_on_post` (whether the analysis run or the comment run raises),
`0` for the like counters — and the enclosing batch loop goes on: with
an always-raising agent, `follow_users_batch` still records an outcome
(`False`) for every distinct attempted username. -/
theorem agent_exception_yields_failure_outcome :
    ∀ (e : String) (username : String) (max_likes : Int) (post_url : String)
      (commentAgent : String → Except String (List (Option String)))
      (ctr : Int) (usernames : List String) (batch_size : Nat),
      follow_user (fun _ => Except.error e) username = false ∧
      like_user_posts (fun _ _ => Except.error e) username max_likes = 0 ∧
      like_hashtag_posts (fun _ _ => Except.error e) username max_likes = 0 ∧
      comment_on_post (fun _ => Except.error e) commentAgent post_url = false ∧
      comment_on_post (fun _ => Except.ok []) (fun _ => Except.error e)
        post_url = false ∧
      (follow_users_batch (fun _ => Except.error e) ctr usernames
          batch_size).1 =
        (firstDedup [] (usernames.take batch_size)).map (fun u => (u, false)) := by
  intro e username max_likes post_url commentAgent ctr usernames batch_size
  refine ⟨rfl, rfl, rfl, rfl, rfl, ?_⟩
  have := followBatchGo_raising e ctr (usernames.take batch_size) []
  simpa [follow_users_batch] using this

/-! ## Theorems about the daily cap guard (claim C6) -/

theorem likeUsersGo_events
    (uAgent : String → Int → Except String (List (Option String)))
    (ctr lpu cap : Int) (hc : ctr < cap) :
    ∀ (us : List String) (st : List (String × Int) × Int × List Ev),
      invokesBelow cap st.2.2 = true →
      invokesBelow cap (likeUsersGo uAgent ctr lpu us st).2.2 = true := by
  intro us
  induction us with
  | nil => intro st h; exact h
  | cons u rest ih =>
    intro st h
    obtain ⟨results, rem, evs⟩ := st
    by_cases hr : rem ≤ 0
    · simpa [likeUsersGo, hr] using h
    · simp only [likeUsersGo, if_neg hr]
      apply ih
      simp only [invokesBelow, List.all_append] at h ⊢
      simp [h, evBelow, hc]

theorem likeHashtagsGo_events
    (hAgent : String → Int → Except String (List (Option String)))
    (ctr lph cap : Int) (hc : ctr < cap) :
    ∀ (hs : List String) (st : List (String × Int) × Int × List Ev),
      invokesBelow cap st.2.2 = true →
      invokesBelow cap (likeHashtagsGo hAgent ctr lph hs st).2.2 = true := by
  intro hs
  induction hs with
  | nil => intro st h; exact h
  | cons u rest ih =>
    intro st h
    obtain ⟨results, rem, evs⟩ := st
    by_cases hr : rem ≤ 0
    · simpa [likeHashtagsGo, hr] using h
    · simp only [likeHashtagsGo, if_neg hr]
      apply ih
      simp only [invokesBelow, List.all_append] at h ⊢
      simp [h, evBelow, hc]

theorem like_posts_batch_events
    (uA hA : String → Int → Except String (List (Option String)))
    (ctr cap : Int) (hc : ctr < cap)
    (usernames hashtags : List String) (bs : Nat) :
    invokesBelow cap (like_posts_batch uA hA ctr usernames hashtags bs).2.2 = true := by
  unfold like_posts_batch
  apply likeHashtagsGo_events hA ctr _ cap hc
  apply likeUsersGo_events uA ctr _ cap hc
  rfl

theorem followLoopRun_events
    (agent : String → Except String (List (Option String))) :
    ∀ (n : Nat) (s : FollowState),
      invokesBelow (MAX_FOLLOWS_PER_DAY : Int) s.trace = true →
      invokesBelow (MAX_FOLLOWS_PER_DAY : Int)
        ((followLoopRun agent n s).1.trace) = true := by
  intro n
  induction n with
  | zero => intro s h; exact h
  | succ n ih =>
    intro s h
    by_cases hd : followDone s = true
    · simpa [followLoopRun, hd] using h
    · simp only [followLoopRun, if_neg hd]
      apply ih
      have htot : s.total < MAX_FOLLOWS_PER_DAY := by
        unfold followDone at hd
        simp only [Bool.or_eq_true, decide_eq_true_eq, not_or] at hd
        omega
      have hcast : ((s.total : Int)) < (MAX_FOLLOWS_PER_DAY : Int) := by
        exact_mod_cast htot
      have hev := followBatchGo_events agent (s.total : Int)
        (MAX_FOLLOWS_PER_DAY : Int) hcast
        (s.remaining.take (min ACTIONS_PER_BATCH_follows
          (MAX_FOLLOWS_PER_DAY - s.total))) []
      simp only [followStep, follow_users_batch, invokesBelow,
        List.all_append] at *
      simp [h, hev]

theorem likeLoopRun_events
    (uA hA : String → Int → Except String (List (Option String)))
    (usernames hashtags : List String) :
    ∀ (n : Nat) (s : LikeState),
      invokesBelow (MAX_LIKES_PER_DAY : Int) s.trace = true →
      invokesBelow (MAX_LIKES_PER_DAY : Int)
        ((likeLoopRun uA hA usernames hashtags n s).1.trace) = true := by
  intro n
  induction n with
  | zero => intro s h; exact h
  | succ n ih =>
    intro s h
    by_cases hd : likeDone s = true
    · simpa [likeLoopRun, hd] using h
    · simp only [likeLoopRun, if_neg hd]
      apply ih
      have htot : s.total < (MAX_LIKES_PER_DAY : Int) := by
        unfold likeDone at hd
        simp only [decide_eq_true_eq] at hd
        omega
      have hev := like_posts_batch_events uA hA s.total
        (MAX_LIKES_PER_DAY : Int) htot usernames hashtags
        ((min (ACTIONS_PER_BATCH_likes : Int)
          ((MAX_LIKES_PER_DAY : Int) - s.total)).toNat)
      simp only [likeStep, invokesBelow, List.all_append] at *
      simp [h, hev]

theorem cycleLoop_events (ts : String) (hist : Nat → List (Option String)) :
    ∀ (n : Nat) (p : Progress4) (evs : List Ev),
      invokesBelow 10 evs = true →
      invokesBelow 10 ((cycleLoop ts hist n p evs).2) = true := by
  intro n
  induction n with
  | zero => intro p evs h; exact h
  | succ n ih =>
    intro p evs h
    by_cases hd : 10 ≤ p.num_likes
    · simpa [cycleLoop, hd] using h
    · have hlt : ((p.num_likes : Int)) < 10 := by exact_mod_cast Nat.lt_of_not_le hd
      have hev : invokesBelow 10
          (evs ++ [Ev.invoke "feed-cycle" (p.num_likes : Int)]) = true := by
        simp only [invokesBelow, List.all_append] at h ⊢
        simp [h, evBelow, hlt]
      simp only [cycleLoop, if_neg hd]
      rcases hu : cycleUpdate ts p (hist n) with _ | p'
      · simpa [hu] using hev
      · simpa [hu] using ih p' _ hev

/-- Claim C6: in every per-category daily loop, the delegated agent is
only ever invoked while the cumulative success counter is still below
the configured daily cap: every invocation event in the trace of
`follow_users_daily`, of `like_posts_daily` and of the
`like_and_comment_cycle` of `4rthtest.py` carries a counter value below
the respective cap (200, 200 and 10), for every stub agent and every
fuel. -/
theorem no_batch_issued_at_or_above_cap :
    (∀ (agent : String → Except String (List (Option String)))
       (usernames : List String) (fuel : Nat),
       invokesBelow (MAX_FOLLOWS_PER_DAY : Int)
         ((follow_users_daily agent usernames fuel).1.trace) = true) ∧
    (∀ (uA hA : String → Int → Except String (List (Option String)))
       (usernames hashtags : List String) (fuel : Nat),
       invokesBelow (MAX_LIKES_PER_DAY : Int)
         ((like_posts_daily uA hA usernames hashtags fuel).1.trace) = true) ∧
    (∀ (ts : String) (hist : Nat → List (Option String)) (fuel : Nat)
       (p : Progress4),
       invokesBelow 10 ((cycleLoop ts hist fuel p []).2) = true) :=
  ⟨fun agent usernames fuel =>
     followLoopRun_events agent fuel (followInit usernames) rfl,
   fun uA hA usernames hashtags fuel =>
     likeLoopRun_events uA hA usernames hashtags fuel likeInit rfl,
   fun ts hist fuel p => cycleLoop_events ts hist fuel p [] rfl⟩

/-! ## Theorems about the follow cap (claim C10) -/

theorem followStep_preserves
    (agent : String → Except String (List (Option String))) (s : FollowState)
    (hd : followDone s = false)
    (h1 : countTrue s.allResults = s.total)
    (h3 : ∀ k, k ∈ s.allResults.map Prod.fst → k ∉ s.remaining) :
    countTrue (followStep agent s).allResults = (followStep agent s).total ∧
    ((followStep agent s).total ≤ MAX_FOLLOWS_PER_DAY ∨
      s.total > MAX_FOLLOWS_PER_DAY) ∧
    (∀ k, k ∈ (followStep agent s).allResults.map Prod.fst →
      k ∉ (followStep agent s).remaining) := by
  have htot : s.total < MAX_FOLLOWS_PER_DAY := by
    unfold followDone at hd
    simp only [Bool.or_eq_false_iff, decide_eq_false_iff_not] at hd
    omega
  have e1 : (followStep agent s).allResults =
      dictUpdate s.allResults
        (follow_users_batch agent (s.total : Int) s.remaining
          (min ACTIONS_PER_BATCH_follows (MAX_FOLLOWS_PER_DAY - s.total))).1 := rfl
  have e2 : (followStep agent s).total =
      s.total + countTrue
        (follow_users_batch agent (s.total : Int) s.remaining
          (min ACTIONS_PER_BATCH_follows (MAX_FOLLOWS_PER_DAY - s.total))).1 := rfl
  have e3 : (followStep agent s).remaining =
      s.remaining.filter (fun u => decide (u ∉
        (follow_users_batch agent (s.total : Int) s.remaining
          (min ACTIONS_PER_BATCH_follows
            (MAX_FOLLOWS_PER_DAY - s.total))).1.map Prod.fst)) := rfl
  generalize hbs : min ACTIONS_PER_BATCH_follows (MAX_FOLLOWS_PER_DAY - s.total) = bs at e1 e2 e3
  generalize hbr : (follow_users_batch agent (s.total : Int) s.remaining bs).1 = batch at e1 e2 e3
  have hkeys : batch.map Prod.fst = firstDedup [] (s.remaining.take bs) := by
    rw [← hbr]
    unfold follow_users_batch
    rw [followBatchGo_fst]
    simp
  have hsub : ∀ k, k ∈ batch.map Prod.fst → k ∈ s.remaining := by
    intro k hk
    rw [hkeys] at hk
    exact List.take_subset bs s.remaining (firstDedup_subset k _ _ hk)
  have hdisj : ∀ k, k ∈ batch.map Prod.fst → k ∉ s.allResults.map Prod.fst :=
    fun k hk hmem => h3 k hmem (hsub k hk)
  have hupd : dictUpdate s.allResults batch = s.allResults ++ batch :=
    dictUpdate_disjoint _ _ hdisj
  have hlen : countTrue batch ≤ bs := by
    calc countTrue batch ≤ batch.length := countTrue_le_length _
      _ = (batch.map Prod.fst).length := (List.length_map _ _).symm
      _ = (firstDedup [] (s.remaining.take bs)).length := by rw [hkeys]
      _ ≤ (s.remaining.take bs).length := firstDedup_length _ _
      _ ≤ bs := by
          have := List.length_take bs s.remaining
          omega
  refine ⟨?_, ?_, ?_⟩
  · rw [e1, e2, hupd, countTrue_append, h1]
  · left
    rw [e2]
    have hb2 : bs ≤ MAX_FOLLOWS_PER_DAY - s.total := by
      rw [← hbs]; exact Nat.min_le_right _ _
    omega
  · intro k hk
    rw [e1, hupd, List.map_append, List.mem_append] at hk
    rw [e3]
    rcases hk with hk | hk
    · intro hmem
      exact h3 k hk (List.mem_filter.mp hmem).1
    · intro hmem
      have hpred := (List.mem_filter.mp hmem).2
      simp only [decide_eq_true_eq] at hpred
      exact hpred hk

theorem followLoopRun_inv
    (agent : String → Except String (List (Option String))) :
    ∀ (n : Nat) (s : FollowState),
      countTrue s.allResults = s.total → s.total ≤ MAX_FOLLOWS_PER_DAY →
      (∀ k, k ∈ s.allResults.map Prod.fst → k ∉ s.remaining) →
      countTrue ((followLoopRun agent n s).1.allResults) =
          (followLoopRun agent n s).1.total ∧
        (followLoopRun agent n s).1.total ≤ MAX_FOLLOWS_PER_DAY := by
  intro n
  induction n with
  | zero => intro s h1 h2 _; exact ⟨h1, h2⟩
  | succ n ih =>
    intro s h1 h2 h3
    by_cases hd : followDone s = true
    · simpa [followLoopRun, hd] using And.intro h1 h2
    · have hd' : followDone s = false := by
        revert hd; cases followDone s <;> simp
      have hp := followStep_preserves agent s hd' h1 h3
      have h2' : (followStep agent s).total ≤ MAX_FOLLOWS_PER_DAY := by
        rcases hp.2.1 with h | h
        · exact h
        · omega
      have := ih (followStep agent s) hp.1 h2' hp.2.2
      simpa [followLoopRun, hd] using this

/-- Claim C10: for every username list, every stub agent and every fuel,
the number of successful follows recorded in the result of
`follow_users_daily` never exceeds `MAX_FOLLOWS_PER_DAY` (200): each
batch attempts at most `batch_size` distinct targets, the batch size is
capped at the remaining quota, and each attempted target contributes at
most one success. -/
theorem follows_never_exceed_daily_cap
    (agent : String → Except String (List (Option String)))
    (usernames : List String) (fuel : Nat) :
    countTrue ((follow_users_daily agent usernames fuel).1.allResults) ≤ 200 := by
  have h := followLoopRun_inv agent fuel (followInit usernames) rfl
    (by norm_num [followInit, MAX_FOLLOWS_PER_DAY]) (by simp [followInit])
  have hmax : MAX_FOLLOWS_PER_DAY = 200 := rfl
  unfold follow_users_daily
  omega

/-! ## Theorems about daily-loop termination (claim C5) -/

theorem filter_length_lt_of_mem_false {α : Type} (p : α → Bool) :
    ∀ (l : List α) (a : α), a ∈ l → p a = false →
      (l.filter p).length < l.length := by
  intro l
  induction l with
  | nil => intro a h; simp at h
  | cons b t ih =>
    intro a h hp
    rcases List.mem_cons.mp h with rfl | hmem
    · rw [List.filter_cons, hp]
      exact Nat.lt_succ_of_le (List.length_filter_le p t)
    · rw [List.filter_cons]
      by_cases hb : p b
      · rw [if_pos (by simp [hb])]
        simpa using Nat.succ_lt_succ (ih a hmem hp)
      · rw [if_neg (by simp [hb])]
        exact Nat.lt_succ_of_lt (ih a hmem hp)

theorem followStep_remaining_lt
    (agent : String → Except String (List (Option String)))
    (s : FollowState) (hd : followDone s = false) :
    (followStep agent s).remaining.length < s.remaining.length := by
  have hne : ¬s.remaining.isEmpty ∧ s.total < MAX_FOLLOWS_PER_DAY := by
    unfold followDone at hd
    simp only [Bool.or_eq_false_iff, decide_eq_false_iff_not] at hd
    constructor
    · simp [hd.1]
    · omega
  obtain ⟨u, rest, hur⟩ : ∃ u rest, s.remaining = u :: rest := by
    cases hrem : s.remaining with
    | nil => exact absurd (by simp [hrem]) hne.1
    | cons u rest => exact ⟨u, rest, rfl⟩
  have e3 : (followStep agent s).remaining =
      s.remaining.filter (fun v => decide (v ∉
        (follow_users_batch agent (s.total : Int) s.remaining
          (min ACTIONS_PER_BATCH_follows
            (MAX_FOLLOWS_PER_DAY - s.total))).1.map Prod.fst)) := rfl
  have hbs : ∃ m, min ACTIONS_PER_BATCH_follows
      (MAX_FOLLOWS_PER_DAY - s.total) = m + 1 := by
    have h1 : 1 ≤ MAX_FOLLOWS_PER_DAY - s.total := by
      have := hne.2; omega
    have h2 : 1 ≤ ACTIONS_PER_BATCH_follows := by
      norm_num [ACTIONS_PER_BATCH_follows, MAX_FOLLOWS_PER_DAY, BATCHES_PER_DAY]
    have : 1 ≤ min ACTIONS_PER_BATCH_follows (MAX_FOLLOWS_PER_DAY - s.total) :=
      le_min h2 h1
    exact ⟨min ACTIONS_PER_BATCH_follows (MAX_FOLLOWS_PER_DAY - s.total) - 1,
      by omega⟩
  obtain ⟨m, hm⟩ := hbs
  have hu : u ∈ (follow_users_batch agent (s.total : Int) s.remaining
      (min ACTIONS_PER_BATCH_follows
        (MAX_FOLLOWS_PER_DAY - s.total))).1.map Prod.fst := by
    unfold follow_users_batch
    rw [followBatchGo_fst, hm, hur, List.take_succ_cons]
    have : firstDedup [] (u :: List.take m rest) =
        u :: firstDedup [u] (List.take m rest) := by
      simp [firstDedup]
    simp [this]
  rw [e3]
  exact filter_length_lt_of_mem_false _ s.remaining u
    (by rw [hur]; exact List.mem_cons_self u rest) (by simp [hu])

theorem followLoopRun_terminates
    (agent : String → Except String (List (Option String))) :
    ∀ (k : Nat) (s : FollowState), s.remaining.length ≤ k →
      ∃ n, (followLoopRun agent n s).2 = true := by
  intro k
  induction k with
  | zero =>
    intro s h
    have hnil : s.remaining = [] := List.length_eq_zero.mp (Nat.le_zero.mp h)
    exact ⟨0, by simp [followLoopRun, followDone, hnil]⟩
  | succ k ih =>
    intro s h
    by_cases hd : followDone s = true
    · exact ⟨0, by simp [followLoopRun, hd]⟩
    · have hd' : followDone s = false := by
        revert hd; cases followDone s <;> simp
      have hlt := followStep_remaining_lt agent s hd'
      obtain ⟨n, hn⟩ := ih (followStep agent s) (by omega)
      exact ⟨n + 1, by simpa [followLoopRun, hd] using hn⟩

theorem dictSet_forall {β : Type} (P : β → Prop) (d : List (String × β))
    (k : String) (v : β) (hall : ∀ p ∈ d, P p.2) (hv : P v) :
    ∀ p ∈ dictSet d k v, P p.2 := by
  unfold dictSet
  by_cases hk : k ∈ d.map Prod.fst
  · rw [if_pos hk]
    intro p hp
    obtain ⟨q, hq, rfl⟩ := List.mem_map.mp hp
    by_cases hq1 : q.1 = k
    · simpa [hq1] using hv
    · simpa [hq1] using hall q hq
  · rw [if_neg hk]
    intro p hp
    rcases List.mem_append.mp hp with hp | hp
    · exact hall p hp
    · simp only [List.mem_singleton] at hp
      simpa [hp] using hv

theorem sumValues_zero (l : List (String × Int))
    (h : ∀ p ∈ l, p.2 = (0 : Int)) : sumValues l = 0 := by
  apply List.sum_eq_zero
  intro x hx
  obtain ⟨p, hp, rfl⟩ := List.mem_map.mp hx
  exact h p hp

theorem likeUsersGo_silent (ctr lpu : Int) :
    ∀ (us : List String) (st : List (String × Int) × Int × List Ev),
      (∀ p ∈ st.1, p.2 = (0 : Int)) →
      ∀ p ∈ (likeUsersGo silentAgent2 ctr lpu us st).1, p.2 = (0 : Int) := by
  intro us
  induction us with
  | nil => intro st h; exact h
  | cons u rest ih =>
    intro st h
    obtain ⟨results, rem, evs⟩ := st
    by_cases hr : rem ≤ 0
    · simpa [likeUsersGo, hr] using h
    · simp only [likeUsersGo, if_neg hr]
      apply ih
      exact dictSet_forall (fun b => b = (0 : Int)) _ _ _ h rfl

theorem likeHashtagsGo_silent (ctr lph : Int) :
    ∀ (hs : List String) (st : List (String × Int) × Int × List Ev),
      (∀ p ∈ st.1, p.2 = (0 : Int)) →
      ∀ p ∈ (likeHashtagsGo silentAgent2 ctr lph hs st).1, p.2 = (0 : Int) := by
  intro hs
  induction hs with
  | nil => intro st h; exact h
  | cons u rest ih =>
    intro st h
    obtain ⟨results, rem, evs⟩ := st
    by_cases hr : rem ≤ 0
    · simpa [likeHashtagsGo, hr] using h
    · simp only [likeHashtagsGo, if_neg hr]
      apply ih
      exact dictSet_forall (fun b => b = (0 : Int)) _ _ _ h rfl

theorem like_posts_batch_silent (ctr : Int) (usernames hashtags : List String)
    (bs : Nat) :
    ∀ p ∈ (like_posts_batch silentAgent2 silentAgent2 ctr usernames hashtags
      bs).1, p.2 = (0 : Int) := by
  unfold like_posts_batch
  apply likeHashtagsGo_silent
  apply likeUsersGo_silent
  intro p hp
  simp at hp

theorem likeStep_silent_total (usernames hashtags : List String)
    (s : LikeState) :
    (likeStep silentAgent2 silentAgent2 usernames hashtags s).total = s.total := by
  have e : (likeStep silentAgent2 silentAgent2 usernames hashtags s).total =
      s.total + sumValues (like_posts_batch silentAgent2 silentAgent2 s.total
        usernames hashtags
        ((min (ACTIONS_PER_BATCH_likes : Int)
          ((MAX_LIKES_PER_DAY : Int) - s.total)).toNat)).1 := rfl
  rw [e, sumValues_zero _ (like_posts_batch_silent _ _ _ _)]
  omega

theorem likeLoopRun_silent (usernames hashtags : List String) :
    ∀ (n : Nat) (s : LikeState), s.total < (MAX_LIKES_PER_DAY : Int) →
      (likeLoopRun silentAgent2 silentAgent2 usernames hashtags n s).2 = false := by
  intro n
  induction n with
  | zero =>
    intro s h
    simp only [likeLoopRun, likeDone, decide_eq_false_iff_not]
    omega
  | succ n ih =>
    intro s h
    have hd : likeDone s = false := by
      simp only [likeDone, decide_eq_false_iff_not]
      omega
    simp only [likeLoopRun, hd, Bool.false_eq_true, if_false]
    apply ih
    rw [likeStep_silent_total]
    exact h

theorem sumSuccess_nil (l : List (String × List (String × Bool)))
    (h : ∀ p ∈ l, p.2 = ([] : List (String × Bool))) : sumSuccess l = 0 := by
  apply List.sum_eq_zero
  intro x hx
  obtain ⟨p, hp, rfl⟩ := List.mem_map.mp hx
  rw [h p hp]
  rfl

theorem commentHashtagsGo_silentFind
    (aA cA : String → Except String (List (Option String)))
    (ctr : Int) (pph : Nat) :
    ∀ (hs : List String)
      (st : List (String × List (String × Bool)) × Nat × List Ev),
      (∀ p ∈ st.1, p.2 = ([] : List (String × Bool))) →
      ∀ p ∈ (commentHashtagsGo silentFind aA cA ctr pph hs st).1,
        p.2 = ([] : List (String × Bool)) := by
  intro hs
  induction hs with
  | nil => intro st h; exact h
  | cons u rest ih =>
    intro st h
    obtain ⟨results, rem, evs⟩ := st
    by_cases hr : rem = 0
    · simpa [commentHashtagsGo, hr] using h
    · simp only [commentHashtagsGo, if_neg hr]
      apply ih
      have hfind : find_posts_to_comment silentFind u (min pph rem) = [] := rfl
      simp only [hfind, commentPostsGo]
      exact dictSet_forall (fun b => b = ([] : List (String × Bool))) _ _ _ h rfl

theorem commentStep_silent_total
    (aA cA : String → Except String (List (Option String)))
    (hashtags : List String) (s : CommentState) :
    (commentStep silentFind aA cA hashtags s).total = s.total := by
  have e : (commentStep silentFind aA cA hashtags s).total =
      s.total + sumSuccess (comment_posts_batch silentFind aA cA
        (s.total : Int) hashtags
        (min ACTIONS_PER_BATCH_comments (MAX_COMMENTS_PER_DAY - s.total))).1 := rfl
  rw [e]
  have hz : ∀ p ∈ (comment_posts_batch silentFind aA cA (s.total : Int) hashtags
      (min ACTIONS_PER_BATCH_comments (MAX_COMMENTS_PER_DAY - s.total))).1,
      p.2 = ([] : List (String × Bool)) := by
    unfold comment_posts_batch
    apply commentHashtagsGo_silentFind
    intro p hp
    simp at hp
  rw [sumSuccess_nil _ hz]
  omega

theorem commentLoopRun_silent
    (aA cA : String → Except String (List (Option String)))
    (hashtags : List String) :
    ∀ (n : Nat) (s : CommentState), s.total < MAX_COMMENTS_PER_DAY →
      (commentLoopRun silentFind aA cA hashtags n s).2 = false := by
  intro n
  induction n with
  | zero =>
    intro s h
    simp only [commentLoopRun, commentDone, decide_eq_false_iff_not]
    omega
  | succ n ih =>
    intro s h
    have hd : commentDone s = false := by
      simp only [commentDone, decide_eq_false_iff_not]
      omega
    simp only [commentLoopRun, hd, Bool.false_eq_true, if_false]
    apply ih
    rw [commentStep_silent_total]
    exact h

/-- Counterexample to claim C5: with a stub agent whose every invocation
reports zero successes and no matching keyword, `like_posts_daily` never
terminates for any fuel, even on the concrete one-username target list —
its only exit is the success counter reaching the cap, which an
all-failing agent never advances. -/
theorem like_daily_loop_never_terminates :
    ¬∃ n, (like_posts_daily silentAgent2 silentAgent2 ["user1"] HASHTAGS
      n).2 = true := by
  rintro ⟨n, hn⟩
  have h := likeLoopRun_silent ["user1"] HASHTAGS n likeInit
    (by norm_num [likeInit, MAX_LIKES_PER_DAY])
  unfold like_posts_daily at hn
  rw [h] at hn
  exact Bool.false_ne_true hn

/-- Claim C5 (amended): `follow_users_daily` terminates for every target
list and every stub agent once the list is exhausted, but
`like_posts_daily` and `comment_posts_daily` track no list exhaustion at
all: under a stub agent that always reports zero successes and no
matching keyword their `while` loops never exit, for any fuel, any
target list and any hashtags. -/
theorem daily_loop_termination_split :
    (∀ (agent : String → Except String (List (Option String)))
       (usernames : List String),
       ∃ n, (follow_users_daily agent usernames n).2 = true) ∧
    (∀ (usernames hashtags : List String) (n : Nat),
       (like_posts_daily silentAgent2 silentAgent2 usernames hashtags n).2 =
         false) ∧
    (∀ (aA cA : String → Except String (List (Option String)))
       (hashtags : List String) (n : Nat),
       (comment_posts_daily silentFind aA cA hashtags n).2 = false) :=
  ⟨fun agent usernames =>
     followLoopRun_terminates agent (followInit usernames).remaining.length
       (followInit usernames) le_rfl,
   fun usernames hashtags n =>
     likeLoopRun_silent usernames hashtags n likeInit
       (by norm_num [likeInit, MAX_LIKES_PER_DAY]),
   fun aA cA hashtags n =>
     commentLoopRun_silent aA cA hashtags n commentInit
       (by norm_num [commentInit, MAX_COMMENTS_PER_DAY])⟩

/-! ## Theorems about per-resource persistence (claim C8) -/

theorem fullMainLoop_persisted :
    ∀ (posts cur : List String),
      persistedEachResource (fullMainLoop cur posts).2 none = true := by
  intro posts
  induction posts with
  | nil => intro cur; rfl
  | cons p rest ih =>
    intro cur
    by_cases hp : p ∈ cur
    · simpa [fullMainLoop, hp] using ih cur
    · have hmem : p ∈ cur ++ [p] :=
        List.mem_append_right _ (List.mem_singleton.mpr rfl)
      simp only [fullMainLoop, if_neg hp]
      simp [persistedEachResource, hmem, ih (cur ++ [p])]

theorem like_and_comment_records
    (likeHist retryHist commentHist : List (Option String)) (ts : String)
    (progress : Progress3) (post_url : String)
    (h : validPostUrl post_url = true) :
    (dictGet (like_and_comment_post likeHist retryHist commentHist ts progress
      post_url).actions post_url).isSome = true := by
  unfold like_and_comment_post
  rw [h]
  simp [dictGet_dictSet]

/-- Claim C8 (amended): persistence is per-resource in `full.py` — after
every processed post the saved interactions list already contains that
post before the loop reaches the next one — and in `3rdtest.py`, whose
`like_and_comment_post` records the outcome for the post URL in the
document it saves before returning; but `run_daily_tasks` in
`instagram_implementation/daily_tasks.py` persists nothing per resource
(see the counterexample: its single stats save happens in the `finally`
block after all loops). -/
theorem per_resource_persistence_split :
    (∀ (posts inter : List String),
       persistedEachResource (fullMainLoop inter posts).2 none = true) ∧
    (∀ (likeHist retryHist commentHist : List (Option String)) (ts : String)
       (progress : Progress3) (post_url : String),
       validPostUrl post_url = true →
       (dictGet (like_and_comment_post likeHist retryHist commentHist ts
         progress post_url).actions post_url).isSome = true) :=
  ⟨fun posts inter => fullMainLoop_persisted posts inter,
   like_and_comment_records⟩

/-- Witness for claim C8 (amended) at concrete inputs. -/
theorem per_resource_persistence_split_witness :
    persistedEachResource (fullMainLoop [] ["a"]).2 none = true ∧
    validPostUrl "x/p/1" = true ∧
    (dictGet (like_and_comment_post [] [] [] "t" default3 "x/p/1").actions
      "x/p/1").isSome = true :=
  ⟨per_resource_persistence_split.1 ["a"] [],
   by decide,
   per_resource_persistence_split.2 [] [] [] "t" default3 "x/p/1" (by decide)⟩

/-- Counterexample to claim C8: in `run_daily_tasks` persistence is
batched at the end of the run, not per-resource.  With a follow agent
that succeeds on two target users, the trace invokes the second user
with no save of the first user's outcome in between; the only save is
the final stats write. -/
theorem run_daily_tasks_saves_only_at_end :
    persistedEachResource
      (run_daily_tasks_trace (fun _ => Except.ok [some "followed"])
        silentAgent2 silentAgent2 silentFind silentAgent silentAgent
        ["alice", "bob"] [] 1 0 0) none = false := by
  rfl
